import Mathlib

/-!
Shallow embedding of the zbxscript monitoring pipeline scripts
(src/itrans.py, src/itrans_zd.py, src/lks.py, src/test_dl.py):
the TestResult report accumulator, the error-banner detector,
the guarded wait operation, the fail-fast step pipeline of itrans.main,
and the retry wrapper execute_step_with_retry of lks.main.

Wall-clock time is modelled as a rational number threaded explicitly
through the state; time.time() readings become explicit clock values.
Python round(x, 2) is modelled by round2 (the half-even tie rule of
Python float rounding is never exercised by any statement below).
-/

namespace Zbx

/-- A JSON value, the target of TestResult.to_dict serialization. -/
inductive JVal where
  | str (s : String) : JVal
  | num (q : ℚ) : JVal
  | boolean (b : Bool) : JVal
  | null : JVal
  | obj (fields : List (String × JVal)) : JVal

/-- Python round(x, 2): round to two decimal places
(round half up; the half-even tie rule of Python floats is never
exercised by any statement in this file). -/
def round2 (q : ℚ) : ℚ := (⌊100 * q + 1/2⌋ : ℤ) / 100

/-- Python dict insertion: updating an existing key keeps its position,
a new key is appended at the end (insertion order preserved). -/
def dictInsert {α : Type} (l : List (String × α)) (k : String) (v : α) :
    List (String × α) :=
  match l with
  | [] => [(k, v)]
  | (k', v') :: rest =>
      if k' = k then (k, v) :: rest else (k', v') :: dictInsert rest k v

/-- One entry of TestResult.steps: {"status": ..., "timing": {"duration_seconds": ...}}. -/
structure StepEntry where
  status : String
  duration_seconds : ℚ
deriving DecidableEq, Repr

/-- The TestResult class shared verbatim by itrans.py and lks.py
(test_info starts as the empty dict, modelled as none). -/
structure TestResult where
  start_time : ℚ
  steps : List (String × StepEntry)
  success : Bool
  status : String
  message : String
  error : Option String
  screenshot : Option String
  test_info : Option ℚ
deriving DecidableEq, Repr

/-- TestResult.__init__, at clock value now. -/
def TestResult.init (now : ℚ) : TestResult :=
  { start_time := now, steps := [], success := true, status := "1",
    message := "", error := none, screenshot := none, test_info := none }

/-- TestResult.add_step: records the step entry under step_name
(dict update) and flips success/status on a "0" status. -/
def TestResult.add_step (r : TestResult) (step_name status : String)
    (duration_seconds : ℚ) : TestResult :=
  { r with
    steps := dictInsert r.steps step_name
      { status := status, duration_seconds := round2 duration_seconds },
    success := if status = "0" then false else r.success,
    status := if status = "0" then "0" else r.status }

/-- TestResult.set_screenshot_b64. -/
def TestResult.set_screenshot_b64 (r : TestResult) (b64 : String) : TestResult :=
  { r with screenshot := some b64 }

/-- TestResult.finalize, called at clock value now: unconditionally
overwrites success, status, message, error and recomputes
test_info.total_duration from start_time and now. -/
def TestResult.finalize (r : TestResult) (now : ℚ) (success : Bool)
    (message : String) (error : Option String) : TestResult :=
  { r with
    success := success,
    status := if success then "1" else "0",
    message := message,
    error := error,
    test_info := some (round2 (now - r.start_time)) }

/-- Serialization of the steps dict. -/
def stepsToJson (steps : List (String × StepEntry)) : JVal :=
  .obj (steps.map fun p =>
    (p.1, .obj [("status", .str p.2.status),
                ("timing", .obj [("duration_seconds", .num p.2.duration_seconds)])]))

/-- An optional string serialized as the string or null. -/
def optStrJson : Option String → JVal
  | some s => .str s
  | none => .null

/-- Serialization of test_info (the empty dict before finalize). -/
def testInfoJson : Option ℚ → JVal
  | some d => .obj [("total_duration", .num d)]
  | none => .obj []

/-- TestResult.to_dict of itrans.py: the error key is always present
(null when there is no error). -/
def TestResult.to_dict_itrans (r : TestResult) : List (String × JVal) :=
  [("success", .boolean r.success),
   ("status", .str r.status),
   ("message", .str r.message),
   ("error", optStrJson r.error),
   ("test_info", testInfoJson r.test_info),
   ("steps", stepsToJson r.steps),
   ("screenshot", optStrJson r.screenshot)]

/-- TestResult.to_dict of lks.py: the error key is appended only when
error is not None. -/
def TestResult.to_dict_lks (r : TestResult) : List (String × JVal) :=
  let data := [("success", .boolean r.success),
               ("status", .str r.status),
               ("message", .str r.message),
               ("test_info", testInfoJson r.test_info),
               ("steps", stepsToJson r.steps),
               ("screenshot", optStrJson r.screenshot)]
  match r.error with
  | some e => data ++ [("error", JVal.str e)]
  | none => data

/-- On an integer number of seconds, round2 is the identity. -/
theorem round2_intCast (n : ℤ) : round2 (n : ℚ) = n := by
  have h1 : (100 : ℚ) * n + 1/2 = ((100 * n : ℤ) : ℚ) + 1/2 := by push_cast; ring
  rw [round2, h1, Int.floor_int_add]
  norm_num

/-! ## Error-banner detector and guarded wait (itrans.py / itrans_zd.py) -/

/-- Python str.lower restricted to the alphabets the scripts use:
ASCII A-Z and Cyrillic А-Я / Ё are mapped to lower case, all other
characters are unchanged. -/
def lowerChar (c : Char) : Char :=
  if 0x41 ≤ c.toNat ∧ c.toNat ≤ 0x5A then Char.ofNat (c.toNat + 0x20)
  else if 0x410 ≤ c.toNat ∧ c.toNat ≤ 0x42F then Char.ofNat (c.toNat + 0x20)
  else if c.toNat = 0x401 then Char.ofNat 0x451
  else c

/-- Python str.lower over a whole string. -/
def pyLower (s : String) : String := String.mk (s.toList.map lowerChar)

/-- An ASCII whitespace character (the only whitespace present in the
strings of the scripts). -/
def isSpaceChar (c : Char) : Bool :=
  c = ' ' || c = '\t' || c = '\n' || c = '\r'

/-- Python str.strip: removes leading and trailing whitespace. -/
def pyStrip (s : String) : String :=
  String.mk (((s.toList.dropWhile isSpaceChar).reverse.dropWhile isSpaceChar).reverse)

/-- Python substring containment: pat in s. -/
def containsSubAux (pat : List Char) : List Char → Bool
  | [] => pat.isEmpty
  | c :: rest => pat.isPrefixOf (c :: rest) || containsSubAux pat rest

/-- Python substring containment: pat in s. -/
def containsSub (s pat : String) : Bool := containsSubAux pat.toList s.toList

/-- One candidate alert element as seen by raise_if_error_banner:
its is_displayed() value, its class attribute (get_attribute can
return None) and its text. -/
structure Alert where
  displayed : Bool
  classAttr : Option String
  text : Option String

/-- The page/driver state consulted by raise_if_error_banner:
the check_error_banner flag, whether self.driver is set, whether the
driver raises WebDriverException while querying the alerts, and the
alert elements matching the errors-container CSS selector. -/
structure BannerEnv where
  check_error_banner : Bool
  driver_present : Bool
  driver_error : Bool
  alerts : List Alert

/-- The failure taxonomy raised by the guarded operations
(each constructor carries the data interpolated into the Python
exception message). -/
inductive Failure where
  | banner (text : String) : Failure
  | elementNotFound (xpath : String) : Failure
  | clickFailed (retries : Nat) (xpath : String) : Failure

/-- The per-alert error classification of raise_if_error_banner:
class attribute contains "alert-error", or the visible text contains
"ошибка" or "произошла ошибка", all after lower-casing. -/
def isErrorAlert (a : Alert) : Bool :=
  let classes := pyLower (a.classAttr.getD "")
  let text := pyStrip (a.text.getD "")
  containsSub classes "alert-error" ||
    containsSub (pyLower text) "ошибка" ||
    containsSub (pyLower text) "произошла ошибка"

/-- The loop of raise_if_error_banner over the visible alerts:
the text of the first visible alert classified as an error, if any. -/
def findBannerMatch : List Alert → Option String
  | [] => none
  | a :: rest =>
      if a.displayed && isErrorAlert a then some (pyStrip (a.text.getD ""))
      else findBannerMatch rest

/-- ItransTest.raise_if_error_banner: returns normally when the check
is disabled, the driver is absent, or the driver raises a
WebDriverException during the page query (swallowed); otherwise raises
the banner failure of the first visible matching alert. -/
def raise_if_error_banner (env : BannerEnv) : Except Failure Unit :=
  if !env.check_error_banner then .ok ()
  else if !env.driver_present then .ok ()
  else if env.driver_error then .ok ()
  else
    match findBannerMatch env.alerts with
    | some t => .error (.banner t)
    | none => .ok ()

/-- Outcome of the underlying WebDriverWait.until call. -/
inductive WaitOutcome where
  | found : WaitOutcome
  | timedOut : WaitOutcome

/-- ItransTest.wait_element: on presence, runs the banner check and
returns; on TimeoutException, runs the banner check first (whose
banner failure propagates) and only then raises Element not found. -/
def wait_element (xpath : String) (outcome : WaitOutcome) (env : BannerEnv) :
    Except Failure Unit :=
  match outcome with
  | .found =>
      match raise_if_error_banner env with
      | .error f => .error f
      | .ok _ => .ok ()
  | .timedOut =>
      match raise_if_error_banner env with
      | .error f => .error f
      | .ok _ => .error (.elementNotFound xpath)

/-! ## The fail-fast step pipeline of itrans.main -/

/-- One pipeline step of itrans.main: its report key, whether its
action succeeds, the wall time the action consumes and the exception
text it raises on failure. -/
structure PStep where
  name : String
  ok : Bool
  dur : ℚ
  errText : String

/-- The run state of itrans.main: the TestResult accumulator, the
check_error_banner flag of the ItransTest instance, the wall clock,
the step actions invoked so far and the process exit code. -/
structure ItransState where
  res : TestResult
  check_error_banner : Bool
  now : ℚ
  executed : List String
  exitCode : Nat

/-- The finalize message on a step failure:
Тест завершился с ошибкой на шаге k. -/
def failMessage (k : Nat) : String :=
  "Тест завершился с ошибкой на шаге " ++ toString k

/-- The recorded error text: Шаг k ошибка: e. -/
def stepErr (k : Nat) (e : String) : String :=
  "Шаг " ++ toString k ++ " ошибка: " ++ e

/-- The per-step try/except block of itrans.main, repeated for the
steps after the login step (step numbers k, k+1, ...): on success
add a Passed StepResult and continue; on failure add a Failed
StepResult, attach the screenshot, finalize as failed and exit 1;
after the last step finalize as successful and exit 0. -/
def runRest (shot : String) : Nat → List PStep → ItransState → ItransState
  | _, [], st =>
      { st with
        res := st.res.finalize st.now true "Тест выполнен успешно" none,
        exitCode := 0 }
  | k, p :: rest, st =>
      let t0 := st.now
      let now1 := st.now + p.dur
      let st1 := { st with now := now1, executed := st.executed ++ [p.name] }
      if p.ok then
        runRest shot (k + 1) rest
          { st1 with res := st1.res.add_step p.name "1" (now1 - t0) }
      else
        let r1 := (st1.res.add_step p.name "0" (now1 - t0)).set_screenshot_b64 shot
        { st1 with
          res := r1.finalize now1 false (failMessage k) (some (stepErr k p.errText)),
          exitCode := 1 }

/-- itrans.main on a list of steps whose first element is the login
step: check_error_banner is set to False before the login action and
set back to True only on the success path; the remaining steps follow
the plain per-step block. -/
def runItransMain (steps : List PStep) (shot : String) (t0 : ℚ) : ItransState :=
  let st0 : ItransState :=
    { res := TestResult.init t0, check_error_banner := true, now := t0,
      executed := [], exitCode := 0 }
  match steps with
  | [] =>
      { st0 with
        res := st0.res.finalize t0 true "Тест выполнен успешно" none }
  | login :: rest =>
      let stA := { st0 with check_error_banner := false }
      let now1 := stA.now + login.dur
      let stB := { stA with now := now1, executed := [login.name] }
      if login.ok then
        runRest shot 2 rest
          { stB with
            check_error_banner := true,
            res := stB.res.add_step login.name "1" (now1 - t0) }
      else
        let r1 := (stB.res.add_step login.name "0" (now1 - t0)).set_screenshot_b64 shot
        { stB with
          res := r1.finalize now1 false (failMessage 1)
            (some (stepErr 1 login.errText)),
          exitCode := 1 }

/-! ## execute_step_with_retry and lks.main -/

/-- Observable events of one execute_step_with_retry call: the start
of an attempt, its outcome, and the recovery (page refresh, ready-state
wait and delay) performed between a failed attempt and the next one. -/
inductive REvent where
  | attemptStart (i : Nat) : REvent
  | attemptOk (i : Nat) : REvent
  | attemptFail (i : Nat) : REvent
  | recovery (i : Nat) : REvent
deriving DecidableEq, Repr

/-- Result of one execute_step_with_retry call: the updated
TestResult, the Python return value, the event trace and the clock. -/
structure RetryOut where
  res : TestResult
  ok : Bool
  events : List REvent
  now : ℚ

/-- The attempt loop of execute_step_with_retry. The step action at
attempt i succeeds when acts i = none and raises the exception text e
when acts i = some e; durs i is the wall time of attempt i and
recDurs i the wall time of the recovery (refresh, ready-state wait,
sleep) run after a failed attempt i. The timer t0 restarts at the top
of every attempt. remaining counts the attempts still allowed after
the current one (max_retries - attempt). -/
def retryAux (n : Nat) (key : String) (acts : Nat → Option String)
    (durs recDurs : Nat → ℚ) (shot : String) :
    Nat → Nat → ℚ → TestResult → List REvent → RetryOut
  | i, Nat.succ rem, now, r, evs =>
    let t0 := now
    let now1 := now + durs i
    match acts i with
    | none =>
        { res := r.add_step key "1" (now1 - t0), ok := true,
          events := evs ++ [.attemptStart i, .attemptOk i], now := now1 }
    | some _ =>
        retryAux n key acts durs recDurs shot (i + 1) rem
          (now1 + recDurs i) r
          (evs ++ [.attemptStart i, .attemptFail i, .recovery i])
  | i, 0, now, r, evs =>
    let t0 := now
    let now1 := now + durs i
    match acts i with
    | none =>
        { res := r.add_step key "1" (now1 - t0), ok := true,
          events := evs ++ [.attemptStart i, .attemptOk i], now := now1 }
    | some e =>
        let err := stepErr n e
        let r1 := (r.set_screenshot_b64 shot).add_step key "0" (now1 - t0)
        { res := r1.finalize now1 false (failMessage n) (some err),
          ok := false,
          events := evs ++ [.attemptStart i, .attemptFail i], now := now1 }

/-- execute_step_with_retry of lks.py: runs the action for up to
max_retries + 1 attempts, refreshing the page between attempts, and on
the last failed attempt records the Failed StepResult, screenshot and
finalized report from the exception of that attempt. -/
def execute_step_with_retry (n : Nat) (key : String)
    (acts : Nat → Option String) (durs recDurs : Nat → ℚ) (shot : String)
    (max_retries : Nat) (r : TestResult) (now : ℚ) : RetryOut :=
  retryAux n key acts durs recDurs shot 0 max_retries now r []

/-- One step of lks.main: its report key and the behavior of its
attempts under execute_step_with_retry. -/
structure LStep where
  key : String
  acts : Nat → Option String
  durs : Nat → ℚ
  recDurs : Nat → ℚ

/-- The run state of lks.main. -/
structure LksState where
  res : TestResult
  now : ℚ
  attempted : List String
  exitCode : Nat

/-- The step chain of lks.main: each step runs under
execute_step_with_retry with max_retries = 2; a False return exits
with code 1, the end of the chain finalizes as successful. -/
def runLksSteps (shot : String) : Nat → List LStep → TestResult → ℚ →
    List String → LksState
  | _, [], r, now, att =>
      { res := r.finalize now true "Тест выполнен успешно" none,
        now := now, attempted := att, exitCode := 0 }
  | k, s :: rest, r, now, att =>
      let out := execute_step_with_retry k s.key s.acts s.durs s.recDurs shot 2 r now
      if out.ok then
        runLksSteps shot (k + 1) rest out.res out.now (att ++ [s.key])
      else
        { res := out.res, now := out.now, attempted := att ++ [s.key],
          exitCode := 1 }

/-- lks.main on a list of steps (step numbering starts at 1). -/
def runLksMain (steps : List LStep) (shot : String) (t0 : ℚ) : LksState :=
  runLksSteps shot 1 steps (TestResult.init t0) t0 []

/-! ## Basic lemmas -/

/-- Inserting a fresh key appends at the end (Python dict insertion order). -/
theorem dictInsert_of_not_mem {α : Type} (l : List (String × α)) (k : String) (v : α)
    (h : k ∉ l.map Prod.fst) : dictInsert l k v = l ++ [(k, v)] := by
  induction l with
  | nil => rfl
  | cons p rest ih =>
      obtain ⟨k', v'⟩ := p
      simp only [List.map_cons, List.mem_cons] at h
      push_neg at h
      simp [dictInsert, Ne.symm h.1, ih h.2]

/-- A sequence of add_step calls, as a fold over (name, status, duration). -/
def applyCalls (r : TestResult) (calls : List (String × String × ℚ)) : TestResult :=
  calls.foldl (fun acc c => acc.add_step c.1 c.2.1 c.2.2) r

theorem applyCalls_nil (r : TestResult) : applyCalls r [] = r := rfl

theorem applyCalls_cons (r : TestResult) (c : String × String × ℚ) (rest) :
    applyCalls r (c :: rest) = applyCalls (r.add_step c.1 c.2.1 c.2.2) rest := rfl

/-- success after a fold of add_step calls: the initial success value
conjoined with the absence of any status-"0" call. -/
theorem applyCalls_success (calls : List (String × String × ℚ)) (r : TestResult) :
    (applyCalls r calls).success =
      (r.success && !calls.any fun c => decide (c.2.1 = "0")) := by
  induction calls generalizing r with
  | nil => simp [applyCalls]
  | cons c rest ih =>
      rw [applyCalls_cons, ih]
      by_cases h : c.2.1 = "0" <;>
        simp [TestResult.add_step, h]

/-- status after a fold of add_step calls. -/
theorem applyCalls_status (calls : List (String × String × ℚ)) (r : TestResult) :
    (applyCalls r calls).status =
      (if calls.any (fun c => decide (c.2.1 = "0")) then "0" else r.status) := by
  induction calls generalizing r with
  | nil => simp [applyCalls]
  | cons call rest ih =>
      rw [applyCalls_cons, ih]
      simp only [TestResult.add_step, List.any_cons]
      by_cases h : call.2.1 = "0"
      · simp [h]
      · rw [if_neg h]
        simp only [decide_eq_false h, Bool.false_or]

theorem round2_two_ne_one : round2 2 ≠ round2 1 := by norm_num [round2]

/-- C9: TestResult failure status is monotone under step recording:
on a fresh TestResult, success is False iff some add_step call in the
sequence carried status "0" (and then the aggregate status is "0");
appending further calls (in particular status-"1" calls) never
restores success to True; finalize overwrites success with its own
argument regardless of the accumulated value. -/
theorem C9_add_step_monotone (t : ℚ) (calls : List (String × String × ℚ)) :
    ((applyCalls (TestResult.init t) calls).success = false ↔
      ∃ c ∈ calls, c.2.1 = "0")
    ∧ ((∃ c ∈ calls, c.2.1 = "0") →
        (applyCalls (TestResult.init t) calls).status = "0")
    ∧ (∀ more, (applyCalls (TestResult.init t) (calls ++ more)).success = true →
        (applyCalls (TestResult.init t) calls).success = true)
    ∧ (∀ now s m e,
        ((applyCalls (TestResult.init t) calls).finalize now s m e).success = s) := by
  refine ⟨?_, ?_, ?_, ?_⟩
  · rw [applyCalls_success]
    simp [TestResult.init, List.any_eq_true]
  · intro h
    rw [applyCalls_status]
    simp only [List.any_eq_true, decide_eq_true_eq]
    rw [if_pos]
    exact h
  · intro more h
    rw [applyCalls_success] at h ⊢
    simp only [TestResult.init, Bool.true_and, Bool.not_eq_true',
      List.any_append, Bool.or_eq_false_iff] at h ⊢
    exact h.1
  · intro now s m e
    simp [TestResult.finalize]

/-- Witness for C9: a single status-"0" call flips success to false. -/
theorem C9_add_step_monotone_witness :
    (applyCalls (TestResult.init 0) [("a", "0", 1)]).success = false :=
  (C9_add_step_monotone 0 [("a", "0", 1)]).1.mpr ⟨("a", "0", 1), by simp⟩

/-- C7 counterexample: finalize has no repeated-invocation guard; a
second finalize call at a later clock value changes
test_info.total_duration. -/
theorem C7_counterexample :
    (((TestResult.init 0).finalize 1 true "m" none).finalize 2 true "m" none).test_info
      ≠ ((TestResult.init 0).finalize 1 true "m" none).test_info := by
  simp only [TestResult.init, TestResult.finalize, sub_zero, ne_eq,
    Option.some.injEq]
  exact fun h => round2_two_ne_one h

/-- C7 amended: finalize is not idempotent-guarded; a second call
re-runs the full finalize, recomputing total_duration from the
unchanged start_time and the current clock, so total_duration changes
after the first call whenever the two rounded elapsed times differ. -/
theorem C7_amended (r : TestResult) (t1 t2 : ℚ) (s1 s2 : Bool)
    (m1 m2 : String) (e1 e2 : Option String) :
    (((r.finalize t1 s1 m1 e1).finalize t2 s2 m2 e2).test_info =
      some (round2 (t2 - r.start_time)))
    ∧ (round2 (t2 - r.start_time) ≠ round2 (t1 - r.start_time) →
        ((r.finalize t1 s1 m1 e1).finalize t2 s2 m2 e2).test_info ≠
          (r.finalize t1 s1 m1 e1).test_info) := by
  constructor
  · simp [TestResult.finalize]
  · intro h
    simp only [TestResult.finalize, ne_eq, Option.some.injEq]
    exact h

/-- Witness for C7 amended, at start time 0 with finalize calls at
clock 1 and clock 2. -/
theorem C7_amended_witness :
    (((TestResult.init 0).finalize 1 true "m" none).finalize 2 false "n" none).test_info
      ≠ ((TestResult.init 0).finalize 1 true "m" none).test_info :=
  (C7_amended (TestResult.init 0) 1 2 true false "m" "n" none none).2
    (by simpa [TestResult.init] using round2_two_ne_one)

/-! ## Banner detector lemmas, claims C2 and C3 -/

/-- The classification predicate spelled out: class contains the error
marker, or the stripped text contains an error word, lower-cased. -/
theorem isErrorAlert_iff (a : Alert) :
    isErrorAlert a = true ↔
      (containsSub (pyLower (a.classAttr.getD "")) "alert-error" = true
       ∨ containsSub (pyLower (pyStrip (a.text.getD ""))) "ошибка" = true
       ∨ containsSub (pyLower (pyStrip (a.text.getD ""))) "произошла ошибка" = true) := by
  simp [isErrorAlert, Bool.or_eq_true, or_assoc]

/-- The banner loop finds a match iff some visible alert classifies as
an error. -/
theorem findBannerMatch_isSome_iff (l : List Alert) :
    (∃ t, findBannerMatch l = some t) ↔
      ∃ a ∈ l, a.displayed = true ∧ isErrorAlert a = true := by
  induction l with
  | nil => simp [findBannerMatch]
  | cons a rest ih =>
      simp only [findBannerMatch]
      by_cases h : (a.displayed && isErrorAlert a) = true
      · rw [if_pos h]
        rw [Bool.and_eq_true] at h
        constructor
        · intro _
          exact ⟨a, List.mem_cons_self a rest, h.1, h.2⟩
        · intro _
          exact ⟨pyStrip (a.text.getD ""), rfl⟩
      · rw [if_neg h, ih]
        constructor
        · rintro ⟨b, hb, hd, he⟩
          exact ⟨b, List.mem_cons_of_mem a hb, hd, he⟩
        · rintro ⟨b, hb, hd, he⟩
          rcases List.mem_cons.mp hb with rfl | hb'
          · exact absurd (by simp [hd, he]) h
          · exact ⟨b, hb', hd, he⟩

/-- When no visible alert classifies as an error the banner loop finds
nothing. -/
theorem findBannerMatch_eq_none (l : List Alert)
    (h : ∀ a ∈ l, ¬(a.displayed = true ∧ isErrorAlert a = true)) :
    findBannerMatch l = none := by
  induction l with
  | nil => rfl
  | cons a rest ih =>
      simp only [findBannerMatch]
      rw [if_neg]
      · exact ih fun b hb => h b (List.mem_cons_of_mem a hb)
      · intro hc
        rw [Bool.and_eq_true] at hc
        exact h a (List.mem_cons_self a rest) hc

/-- With the check enabled, the driver present and no driver error,
raise_if_error_banner reduces to the banner loop. -/
theorem raise_if_error_banner_eq (env : BannerEnv)
    (hen : env.check_error_banner = true) (hdrv : env.driver_present = true)
    (hde : env.driver_error = false) :
    raise_if_error_banner env =
      (match findBannerMatch env.alerts with
       | some t => .error (.banner t)
       | none => .ok ()) := by
  simp [raise_if_error_banner, hen, hdrv, hde]

/-- C3: raise_if_error_banner, when enabled, raises a banner failure
iff the class of some visible alert contains the error marker or its text
matches the error words, case-insensitively, either signal alone
sufficing; a WebDriverException during the page query is swallowed and
the check returns normally; and every failure the check raises is a
banner failure (the banner exception itself is never swallowed). -/
theorem C3_banner_classification (env : BannerEnv)
    (hen : env.check_error_banner = true) (hdrv : env.driver_present = true) :
    (env.driver_error = true → raise_if_error_banner env = .ok ())
    ∧ (env.driver_error = false →
        ((∃ t, raise_if_error_banner env = .error (.banner t)) ↔
          ∃ a ∈ env.alerts, a.displayed = true ∧
            (containsSub (pyLower (a.classAttr.getD "")) "alert-error" = true
             ∨ containsSub (pyLower (pyStrip (a.text.getD ""))) "ошибка" = true
             ∨ containsSub (pyLower (pyStrip (a.text.getD ""))) "произошла ошибка" = true)))
    ∧ (∀ f, raise_if_error_banner env = .error f → ∃ t, f = .banner t) := by
  refine ⟨?_, ?_, ?_⟩
  · intro hde
    simp [raise_if_error_banner, hen, hdrv, hde]
  · intro hde
    rw [raise_if_error_banner_eq env hen hdrv hde]
    cases hfb : findBannerMatch env.alerts with
    | some t =>
        simp only []
        constructor
        · intro _
          rcases (findBannerMatch_isSome_iff env.alerts).mp ⟨t, hfb⟩ with ⟨a, ha, hd, he⟩
          exact ⟨a, ha, hd, (isErrorAlert_iff a).mp he⟩
        · intro _
          exact ⟨t, rfl⟩
    | none =>
        simp only []
        constructor
        · rintro ⟨t, ht⟩
          exact absurd ht (by simp)
        · rintro ⟨a, ha, hd, he⟩
          rcases (findBannerMatch_isSome_iff env.alerts).mpr
            ⟨a, ha, hd, (isErrorAlert_iff a).mpr he⟩ with ⟨t, ht⟩
          rw [hfb] at ht
          exact absurd ht (by simp)
  · intro f hf
    by_cases hde : env.driver_error = true
    · rw [(by simp [raise_if_error_banner, hen, hdrv, hde] :
        raise_if_error_banner env = .ok ())] at hf
      exact absurd hf (by simp)
    · rw [raise_if_error_banner_eq env hen hdrv (Bool.not_eq_true _ ▸ hde)] at hf
      cases hfb : findBannerMatch env.alerts with
      | some t =>
          rw [hfb] at hf
          simp only [Except.error.injEq] at hf
          exact ⟨t, hf.symm⟩
      | none =>
          rw [hfb] at hf
          exact absurd hf (by simp)

/-- A concrete page state: one visible alert with an upper-case error
class and a neutral text. -/
def env3 : BannerEnv :=
  { check_error_banner := true, driver_present := true, driver_error := false,
    alerts := [{ displayed := true, classAttr := some "ALERT ALERT-ERROR SHOW",
                 text := some "Сбой" }] }

/-- Witness for C3: the upper-case class alone triggers the banner
failure. -/
theorem C3_banner_classification_witness :
    ∃ t, raise_if_error_banner env3 = Except.error (Failure.banner t) :=
  ((C3_banner_classification env3 rfl rfl).2.1 rfl).mpr
    ⟨{ displayed := true, classAttr := some "ALERT ALERT-ERROR SHOW",
       text := some "Сбой" }, by simp [env3], rfl, Or.inl (by decide)⟩

/-- C2: on a wait-for-presence timeout, the banner check runs before
the element-not-found failure is raised: with the check enabled and a
visible matching banner on the page, wait_element reports the banner
failure, and only in the absence of such a banner does it report
ElementNotFound with the locator. -/
theorem C2_timeout_banner_precedence (xpath : String) (env : BannerEnv)
    (hen : env.check_error_banner = true) (hdrv : env.driver_present = true)
    (hde : env.driver_error = false) :
    ((∃ a ∈ env.alerts, a.displayed = true ∧ isErrorAlert a = true) →
      ∃ t, wait_element xpath .timedOut env = .error (.banner t))
    ∧ ((∀ a ∈ env.alerts, ¬(a.displayed = true ∧ isErrorAlert a = true)) →
      wait_element xpath .timedOut env = .error (.elementNotFound xpath)) := by
  constructor
  · intro h
    rcases (findBannerMatch_isSome_iff env.alerts).mpr h with ⟨t, ht⟩
    refine ⟨t, ?_⟩
    simp only [wait_element, raise_if_error_banner_eq env hen hdrv hde, ht]
  · intro h
    simp only [wait_element, raise_if_error_banner_eq env hen hdrv hde,
      findBannerMatch_eq_none env.alerts h]

/-- Witness for C2: a timed-out wait with a visible error banner
reports the banner failure, not ElementNotFound. -/
theorem C2_timeout_banner_precedence_witness :
    ∃ t, wait_element "//input" WaitOutcome.timedOut env3 =
      Except.error (Failure.banner t) :=
  (C2_timeout_banner_precedence "//input" env3 rfl rfl rfl).1
    ⟨{ displayed := true, classAttr := some "ALERT ALERT-ERROR SHOW",
       text := some "Сбой" }, by simp [env3], rfl, by decide⟩

/-! ## Pipeline lemmas for itrans.main, claim C4 -/

/-- The (name, status) projection of the steps map. -/
def nameStatus (l : List (String × StepEntry)) : List (String × String) :=
  l.map fun p => (p.1, p.2.status)

theorem nameStatus_append (l l' : List (String × StepEntry)) :
    nameStatus (l ++ l') = nameStatus l ++ nameStatus l' := by
  simp [nameStatus]

/-- runRest never touches the check_error_banner flag. -/
theorem runRest_flag (shot : String) (steps : List PStep) :
    ∀ (k : Nat) (st : ItransState),
    (runRest shot k steps st).check_error_banner = st.check_error_banner := by
  induction steps with
  | nil => intro k st; rfl
  | cons p rest ih =>
      intro k st
      simp only [runRest]
      by_cases h : p.ok = true
      · rw [if_pos h, ih]
      · rw [if_neg h]

/-- A run of runRest over passing steps followed by a failing step:
each passing step appends a "1" entry, the failing step appends a "0"
entry, the run finalizes as failed with exit code 1 and no later step
executes. -/
theorem runRest_fail (shot : String) (pre : List PStep) (bad : PStep)
    (post : List PStep) :
    ∀ (k : Nat) (st : ItransState),
    (∀ p ∈ pre, p.ok = true) → bad.ok = false →
    (∀ p ∈ pre, p.name ∉ st.res.steps.map Prod.fst) →
    bad.name ∉ st.res.steps.map Prod.fst →
    ((pre ++ [bad]).map PStep.name).Nodup →
    nameStatus (runRest shot k (pre ++ bad :: post) st).res.steps =
        nameStatus st.res.steps ++ pre.map (fun p => (p.name, "1")) ++ [(bad.name, "0")]
    ∧ (runRest shot k (pre ++ bad :: post) st).res.success = false
    ∧ (runRest shot k (pre ++ bad :: post) st).res.status = "0"
    ∧ (runRest shot k (pre ++ bad :: post) st).executed =
        st.executed ++ pre.map PStep.name ++ [bad.name]
    ∧ (runRest shot k (pre ++ bad :: post) st).exitCode = 1 := by
  induction pre with
  | nil =>
      intro k st _ hbad _ hfreshb _
      simp only [List.nil_append, runRest]
      rw [if_neg (show ¬bad.ok = true by simp [hbad])]
      refine ⟨?_, rfl, rfl, by simp, rfl⟩
      simp [TestResult.finalize, TestResult.set_screenshot_b64, TestResult.add_step,
        dictInsert_of_not_mem _ _ _ hfreshb, nameStatus_append, nameStatus]
  | cons p pre' ih =>
      intro k st hpre hbad hfresh hfreshb hnodup
      have hp : p.ok = true := hpre p (List.mem_cons_self p pre')
      simp only [List.cons_append, runRest, if_pos hp]
      have hpn : p.name ∉ st.res.steps.map Prod.fst :=
        hfresh p (List.mem_cons_self p pre')
      rw [List.cons_append, List.map_cons, List.nodup_cons] at hnodup
      have hpname : p.name ∉ (pre' ++ [bad]).map PStep.name := hnodup.1
      have hnodup' : ((pre' ++ [bad]).map PStep.name).Nodup := hnodup.2
      obtain ⟨h1, h2, h3, h4, h5⟩ := ih (k + 1)
        { st with
            now := st.now + p.dur,
            executed := st.executed ++ [p.name],
            res := st.res.add_step p.name "1" (st.now + p.dur - st.now) }
        (fun q hq => hpre q (List.mem_cons_of_mem p hq))
        hbad
        (by
          intro q hq
          simp only [TestResult.add_step, dictInsert_of_not_mem _ _ _ hpn,
            List.map_append, List.mem_append]
          rintro (hmem | hmem)
          · exact hfresh q (List.mem_cons_of_mem p hq) hmem
          · have : q.name = p.name := by simpa using hmem
            exact hpname (by
              rw [← this]
              exact List.mem_map_of_mem PStep.name (by simp [hq])))
        (by
          simp only [TestResult.add_step, dictInsert_of_not_mem _ _ _ hpn,
            List.map_append, List.mem_append]
          rintro (hmem | hmem)
          · exact hfreshb hmem
          · have : bad.name = p.name := by simpa using hmem
            exact hpname (by
              rw [← this]
              exact List.mem_map_of_mem PStep.name (by simp)))
        hnodup'
      refine ⟨?_, h2, h3, ?_, h5⟩
      · simp only [List.append_eq]
        rw [h1]
        simp [TestResult.add_step, dictInsert_of_not_mem _ _ _ hpn,
          nameStatus_append, nameStatus]
      · simp only [List.append_eq]
        rw [h4]
        simp

/-- A run of runRest in which every step passes: the run finalizes as
successful with exit code 0, no error and an untouched screenshot. -/
theorem runRest_allok (shot : String) (steps : List PStep) :
    ∀ (k : Nat) (st : ItransState),
    (∀ p ∈ steps, p.ok = true) →
    (runRest shot k steps st).res.success = true
    ∧ (runRest shot k steps st).res.error = none
    ∧ (runRest shot k steps st).res.screenshot = st.res.screenshot
    ∧ (runRest shot k steps st).exitCode = 0 := by
  induction steps with
  | nil =>
      intro k st _
      exact ⟨rfl, rfl, rfl, rfl⟩
  | cons p rest ih =>
      intro k st hok
      have hp : p.ok = true := hok p (List.mem_cons_self p rest)
      simp only [runRest, if_pos hp]
      obtain ⟨h1, h2, h3, h4⟩ := ih (k + 1)
        { st with
            now := st.now + p.dur,
            executed := st.executed ++ [p.name],
            res := st.res.add_step p.name "1" (st.now + p.dur - st.now) }
        (fun q hq => hok q (List.mem_cons_of_mem p hq))
      exact ⟨h1, h2, by rw [h3]; rfl, h4⟩

/-- C4 counterexample: when the login action fails, the flag-restoring
assignment is skipped, so check_error_banner is still False after the
login step completes. -/
theorem C4_counterexample :
    (runItransMain
      [{ name := "test_01_open_and_login",
         ok := false, dur := 3, errText := "Element not found" }]
      "shot" 0).check_error_banner = false := by
  rfl

/-- C4 amended: check_error_banner is restored to True only when the
login action succeeds; when the login action fails the flag remains
False, but the run aborts immediately with exit code 1 after recording
only the login step, so no later banner check observes the stale flag. -/
theorem C4_amended (login : PStep) (rest : List PStep) (shot : String) (t0 : ℚ) :
    (login.ok = true →
      (runItransMain (login :: rest) shot t0).check_error_banner = true)
    ∧ (login.ok = false →
      (runItransMain (login :: rest) shot t0).check_error_banner = false
      ∧ (runItransMain (login :: rest) shot t0).executed = [login.name]
      ∧ (runItransMain (login :: rest) shot t0).exitCode = 1) := by
  constructor
  · intro h
    simp only [runItransMain, if_pos h]
    rw [runRest_flag]
  · intro h
    simp only [runItransMain]
    rw [if_neg (show ¬login.ok = true by simp [h])]
    exact ⟨rfl, rfl, rfl⟩

/-- Witness for C4 amended: a successful login restores the flag. -/
theorem C4_amended_witness :
    (runItransMain
      [{ name := "test_01_open_and_login",
         ok := true, dur := 3, errText := "" }]
      "shot" 0).check_error_banner = true :=
  (C4_amended
    { name := "test_01_open_and_login",
      ok := true, dur := 3, errText := "" } [] "shot" 0).1 rfl

/-! ## Retry-loop lemmas -/

/-- Event trace of a retry run whose visible attempts all fail:
attempt i fails, recovery runs, and so on, the last attempt failing
with no recovery after it. -/
def failEvents (i : Nat) : Nat → List REvent
  | 0 => [.attemptStart i, .attemptFail i]
  | Nat.succ rem =>
      [.attemptStart i, .attemptFail i, .recovery i] ++ failEvents (i + 1) rem

/-- Event trace of a retry run that fails j times and then succeeds:
a recovery strictly between each failed attempt and the next attempt,
none before the first attempt, none after the successful one. -/
def passEvents (i : Nat) : Nat → List REvent
  | 0 => [.attemptStart i, .attemptOk i]
  | Nat.succ l =>
      [.attemptStart i, .attemptFail i, .recovery i] ++ passEvents (i + 1) l

/-- Whether an event is a recovery invocation. -/
def isRecovery : REvent → Bool
  | .recovery _ => true
  | _ => false

/-- Number of recovery invocations in a trace. -/
def countRecoveries (evs : List REvent) : Nat := (evs.filter isRecovery).length

/-- A retry run all of whose attempts fail: returns False, records one
Failed StepResult whose duration is the own duration of the last
attempt, and reports the exception of the last attempt. -/
theorem retryAux_allFail (n : Nat) (key : String) (acts : Nat → Option String)
    (errs : Nat → String) (durs recDurs : Nat → ℚ) (shot : String) :
    ∀ (remaining i : Nat) (now : ℚ) (r : TestResult) (evs : List REvent),
    (∀ j, j ≤ remaining → acts (i + j) = some (errs (i + j))) →
    (retryAux n key acts durs recDurs shot i remaining now r evs).ok = false
    ∧ (retryAux n key acts durs recDurs shot i remaining now r evs).events =
        evs ++ failEvents i remaining
    ∧ (retryAux n key acts durs recDurs shot i remaining now r evs).res.steps =
        dictInsert r.steps key
          { status := "0", duration_seconds := round2 (durs (i + remaining)) }
    ∧ (retryAux n key acts durs recDurs shot i remaining now r evs).res.success = false
    ∧ (retryAux n key acts durs recDurs shot i remaining now r evs).res.status = "0"
    ∧ (retryAux n key acts durs recDurs shot i remaining now r evs).res.error =
        some (stepErr n (errs (i + remaining)))
    ∧ (retryAux n key acts durs recDurs shot i remaining now r evs).res.message =
        failMessage n
    ∧ (retryAux n key acts durs recDurs shot i remaining now r evs).res.screenshot =
        some shot := by
  intro remaining
  induction remaining with
  | zero =>
      intro i now r evs h
      have h0 : acts i = some (errs i) := by
        have := h 0 (Nat.le_refl 0)
        simpa using this
      simp [retryAux, h0, TestResult.add_step, TestResult.set_screenshot_b64,
        TestResult.finalize, failEvents]
  | succ rem ih =>
      intro i now r evs h
      have h0 : acts i = some (errs i) := by
        have := h 0 (Nat.zero_le _)
        simpa using this
      simp only [retryAux, h0]
      obtain ⟨g1, g2, g3, g4, g5, g6, g7, g8⟩ := ih (i + 1) (now + durs i + recDurs i) r
        (evs ++ [.attemptStart i, .attemptFail i, .recovery i])
        (by
          intro j hj
          have := h (j + 1) (Nat.succ_le_succ hj)
          rw [show i + (j + 1) = i + 1 + j by omega] at this
          exact this)
      rw [show i + 1 + rem = i + (rem + 1) by omega] at g3 g6
      refine ⟨g1, ?_, g3, g4, g5, g6, g7, g8⟩
      rw [g2]
      simp [failEvents]

/-- A retry run whose first success is at attempt j: returns True
immediately at that attempt, records one Passed StepResult whose
duration is attempt j's own duration, and leaves every other
TestResult field untouched. -/
theorem retryAux_firstSuccess (n : Nat) (key : String) (acts : Nat → Option String)
    (durs recDurs : Nat → ℚ) (shot : String) :
    ∀ (j i remaining : Nat) (now : ℚ) (r : TestResult) (evs : List REvent),
    j ≤ remaining → acts (i + j) = none → (∀ l, l < j → acts (i + l) ≠ none) →
    (retryAux n key acts durs recDurs shot i remaining now r evs).ok = true
    ∧ (retryAux n key acts durs recDurs shot i remaining now r evs).events =
        evs ++ passEvents i j
    ∧ (retryAux n key acts durs recDurs shot i remaining now r evs).res.steps =
        dictInsert r.steps key
          { status := "1", duration_seconds := round2 (durs (i + j)) }
    ∧ (retryAux n key acts durs recDurs shot i remaining now r evs).res.success = r.success
    ∧ (retryAux n key acts durs recDurs shot i remaining now r evs).res.status = r.status
    ∧ (retryAux n key acts durs recDurs shot i remaining now r evs).res.error = r.error
    ∧ (retryAux n key acts durs recDurs shot i remaining now r evs).res.screenshot =
        r.screenshot
    ∧ (retryAux n key acts durs recDurs shot i remaining now r evs).res.message =
        r.message
    ∧ (retryAux n key acts durs recDurs shot i remaining now r evs).res.test_info =
        r.test_info := by
  intro j
  induction j with
  | zero =>
      intro i remaining now r evs _ hnone _
      rw [Nat.add_zero] at hnone
      cases remaining with
      | zero => simp [retryAux, hnone, TestResult.add_step, passEvents]
      | succ rem => simp [retryAux, hnone, TestResult.add_step, passEvents]
  | succ j' ih =>
      intro i remaining now r evs hle hnone hlt
      have hne : acts i ≠ none := by
        have := hlt 0 (Nat.succ_pos j')
        simpa using this
      cases hai : acts i with
      | none => exact absurd hai hne
      | some e =>
          cases remaining with
          | zero => omega
          | succ rem' =>
              simp only [retryAux, hai]
              obtain ⟨g1, g2, g3, g4, g5, g6, g7, g8, g9⟩ := ih (i + 1) rem'
                (now + durs i + recDurs i) r
                (evs ++ [.attemptStart i, .attemptFail i, .recovery i])
                (Nat.le_of_succ_le_succ hle)
                (by rw [show i + 1 + j' = i + (j' + 1) by omega]; exact hnone)
                (by
                  intro l hl
                  have := hlt (l + 1) (Nat.succ_lt_succ hl)
                  rw [show i + (l + 1) = i + 1 + l by omega] at this
                  exact this)
              rw [show i + 1 + j' = i + (j' + 1) by omega] at g3
              refine ⟨g1, ?_, g3, g4, g5, g6, g7, g8, g9⟩
              rw [g2]
              simp [passEvents]

/-! ## Claims C5, C6, C10 -/

/-- C5: when every attempt of a retry-wrapped step fails, the failure
surfaced and recorded in the report is the exception of the last
attempt (for max_retries = 1, i.e. maxAttempts = 2, the error of the
second attempt); when an attempt succeeds the wrapper records a Passed step and
returns immediately, its trace ending at that attempt. -/
theorem C5_retry_surfaces_last_error (n : Nat) (key : String)
    (acts : Nat → Option String) (errs : Nat → String)
    (durs recDurs : Nat → ℚ) (shot : String) (m : Nat)
    (r : TestResult) (now : ℚ) :
    ((∀ j, j ≤ m → acts j = some (errs j)) →
      (execute_step_with_retry n key acts durs recDurs shot m r now).ok = false
      ∧ (execute_step_with_retry n key acts durs recDurs shot m r now).res.error =
          some (stepErr n (errs m))
      ∧ (execute_step_with_retry n key acts durs recDurs shot m r now).res.message =
          failMessage n)
    ∧ (∀ j, j ≤ m → acts j = none → (∀ l, l < j → acts l ≠ none) →
      (execute_step_with_retry n key acts durs recDurs shot m r now).ok = true
      ∧ (execute_step_with_retry n key acts durs recDurs shot m r now).events =
          passEvents 0 j) := by
  constructor
  · intro h
    obtain ⟨g1, g2, g3, g4, g5, g6, g7, g8⟩ :=
      retryAux_allFail n key acts errs durs recDurs shot m 0 now r []
        (by intro j hj; simpa using h j hj)
    rw [show (0 : Nat) + m = m by omega] at g6
    exact ⟨g1, g6, g7⟩
  · intro j hj hnone hlt
    obtain ⟨g1, g2, g3, g4, g5, g6, g7, g8, g9⟩ :=
      retryAux_firstSuccess n key acts durs recDurs shot j 0 m now r []
        hj (by simpa using hnone) (by intro l hl; simpa using hlt l hl)
    refine ⟨g1, ?_⟩
    show (retryAux n key acts durs recDurs shot 0 m now r []).events = passEvents 0 j
    rw [g2]
    simp

/-- Witness for C5: with max_retries = 1 (two attempts) and both
attempts failing, the reported error carries the message of the
second attempt, not that of the first. -/
theorem C5_retry_surfaces_last_error_witness :
    (execute_step_with_retry 1 "step"
      (fun i => some (if i = 0 then "first failure" else "second failure"))
      (fun _ => 1) (fun _ => 1) "shot" 1 (TestResult.init 0) 0).res.error =
      some (stepErr 1 "second failure") :=
  ((C5_retry_surfaces_last_error 1 "step"
      (fun i => some (if i = 0 then "first failure" else "second failure"))
      (fun i => if i = 0 then "first failure" else "second failure")
      (fun _ => 1) (fun _ => 1) "shot" 1 (TestResult.init 0) 0).1
    (by decide)).2.1

/-- The attempt behavior used in the C6 scenario: two failures, then
success. -/
def c6acts : Nat → Option String :=
  fun i => if i < 2 then some "временный сбой" else none

/-- C6 counterexample: an action failing twice then succeeding under
max_retries = 2 (three attempts) performs two recovery invocations
(one after each failed attempt), not one as the claim states. -/
theorem C6_counterexample :
    countRecoveries (execute_step_with_retry 3 "step" c6acts (fun _ => 1)
      (fun _ => 1) "shot" 2 (TestResult.init 0) 0).events = 2
    ∧ (2 : Nat) ≠ 1 := by
  exact ⟨rfl, by decide⟩

/-- C6 amended: the recovery action runs strictly between a failed
attempt and the next attempt, never before the first attempt and never
after the last, as the explicit event trace shows; an action that
fails twice then succeeds under max_retries = 2 is recorded as a
single Passed StepResult, with exactly two recovery invocations, one
after each failed attempt. -/
theorem C6_amended (n : Nat) (key : String) (acts : Nat → Option String)
    (durs recDurs : Nat → ℚ) (shot : String) (r : TestResult) (now : ℚ)
    (e0 e1 : String) (h0 : acts 0 = some e0) (h1 : acts 1 = some e1)
    (h2 : acts 2 = none) :
    (execute_step_with_retry n key acts durs recDurs shot 2 r now).ok = true
    ∧ (execute_step_with_retry n key acts durs recDurs shot 2 r now).events =
        [.attemptStart 0, .attemptFail 0, .recovery 0,
         .attemptStart 1, .attemptFail 1, .recovery 1,
         .attemptStart 2, .attemptOk 2]
    ∧ countRecoveries
        (execute_step_with_retry n key acts durs recDurs shot 2 r now).events = 2
    ∧ (execute_step_with_retry n key acts durs recDurs shot 2 r now).res.steps =
        dictInsert r.steps key { status := "1", duration_seconds := round2 (durs 2) }
    ∧ (execute_step_with_retry n key acts durs recDurs shot 2 r now).res.success =
        r.success := by
  obtain ⟨g1, g2, g3, g4, g5, g6, g7, g8, g9⟩ :=
    retryAux_firstSuccess n key acts durs recDurs shot 2 0 2 now r []
      (Nat.le_refl 2) (by simpa using h2)
      (by
        intro l hl
        interval_cases l
        · simp [h0]
        · simp [h1])
  refine ⟨g1, ?_, ?_, by simpa using g3, g4⟩
  · show (retryAux n key acts durs recDurs shot 0 2 now r []).events =
      [.attemptStart 0, .attemptFail 0, .recovery 0,
       .attemptStart 1, .attemptFail 1, .recovery 1,
       .attemptStart 2, .attemptOk 2]
    rw [g2]
    rfl
  · show countRecoveries
      (retryAux n key acts durs recDurs shot 0 2 now r []).events = 2
    rw [g2]
    rfl

/-- Witness for C6 amended: the fails-twice-then-succeeds scenario is
Passed with two recoveries observed. -/
theorem C6_amended_witness :
    (execute_step_with_retry 3 "step" c6acts (fun _ => 1) (fun _ => 1)
      "shot" 2 (TestResult.init 0) 0).ok = true
    ∧ (execute_step_with_retry 3 "step" c6acts (fun _ => 1) (fun _ => 1)
      "shot" 2 (TestResult.init 0) 0).events =
        [.attemptStart 0, .attemptFail 0, .recovery 0,
         .attemptStart 1, .attemptFail 1, .recovery 1,
         .attemptStart 2, .attemptOk 2] :=
  ⟨(C6_amended 3 "step" c6acts (fun _ => 1) (fun _ => 1) "shot"
      (TestResult.init 0) 0 "временный сбой" "временный сбой" rfl rfl rfl).1,
   (C6_amended 3 "step" c6acts (fun _ => 1) (fun _ => 1) "shot"
      (TestResult.init 0) 0 "временный сбой" "временный сбой" rfl rfl rfl).2.1⟩

/-- C10: the recorded duration_seconds covers only the final attempt:
the timer restarts at the top of every attempt, so the recorded value
is round2 of the own duration of the last attempt, excluding the
duration of every earlier attempt and every recovery duration. -/
theorem C10_duration_covers_last_attempt (n : Nat) (key : String)
    (acts : Nat → Option String) (errs : Nat → String)
    (durs recDurs : Nat → ℚ) (shot : String) (m : Nat)
    (r : TestResult) (now : ℚ) :
    ((∀ j, j ≤ m → acts j = some (errs j)) →
      (execute_step_with_retry n key acts durs recDurs shot m r now).res.steps =
        dictInsert r.steps key
          { status := "0", duration_seconds := round2 (durs m) })
    ∧ (∀ j, j ≤ m → acts j = none → (∀ l, l < j → acts l ≠ none) →
      (execute_step_with_retry n key acts durs recDurs shot m r now).res.steps =
        dictInsert r.steps key
          { status := "1", duration_seconds := round2 (durs j) }) := by
  constructor
  · intro h
    obtain ⟨_, _, g3, _⟩ :=
      retryAux_allFail n key acts errs durs recDurs shot m 0 now r []
        (by intro j hj; simpa using h j hj)
    simpa using g3
  · intro j hj hnone hlt
    obtain ⟨_, _, g3, _⟩ :=
      retryAux_firstSuccess n key acts durs recDurs shot j 0 m now r []
        hj (by simpa using hnone) (by intro l hl; simpa using hlt l hl)
    simpa using g3

/-- Witness for C10: a step failing once then succeeding records the
duration of the second attempt only. -/
theorem C10_duration_covers_last_attempt_witness :
    (execute_step_with_retry 1 "step"
      (fun i => if i = 0 then some "boom" else none)
      (fun i => (i : ℚ) + 7) (fun _ => 100) "shot" 2
      (TestResult.init 0) 0).res.steps =
      dictInsert [] "step"
        { status := "1", duration_seconds := round2 ((1 : ℚ) + 7) } :=
  (C10_duration_covers_last_attempt 1 "step"
      (fun i => if i = 0 then some "boom" else none) (fun _ => "boom")
      (fun i => (i : ℚ) + 7) (fun _ => 100) "shot" 2
      (TestResult.init 0) 0).2 1 (by decide) (by decide) (by decide)

/-! ## lks.main chain lemmas -/

/-- An execute_step_with_retry call (max_retries = 2) with some
successful attempt among the first three returns True, records one
Passed StepResult and leaves the other TestResult fields untouched. -/
theorem retry2_pass (n : Nat) (key : String) (acts : Nat → Option String)
    (durs recDurs : Nat → ℚ) (shot : String) (r : TestResult) (now : ℚ)
    (h : ∃ j, j ≤ 2 ∧ acts j = none) :
    (execute_step_with_retry n key acts durs recDurs shot 2 r now).ok = true
    ∧ (∃ d, (execute_step_with_retry n key acts durs recDurs shot 2 r now).res.steps =
        dictInsert r.steps key { status := "1", duration_seconds := d })
    ∧ (execute_step_with_retry n key acts durs recDurs shot 2 r now).res.success =
        r.success
    ∧ (execute_step_with_retry n key acts durs recDurs shot 2 r now).res.status =
        r.status
    ∧ (execute_step_with_retry n key acts durs recDurs shot 2 r now).res.error =
        r.error
    ∧ (execute_step_with_retry n key acts durs recDurs shot 2 r now).res.screenshot =
        r.screenshot := by
  cases ha0 : acts 0 with
  | none =>
      obtain ⟨g1, _, g3, g4, g5, g6, g7, _, _⟩ :=
        retryAux_firstSuccess n key acts durs recDurs shot 0 0 2 now r []
          (Nat.zero_le 2) (by simpa using ha0) (by intro l hl; omega)
      exact ⟨g1, ⟨_, g3⟩, g4, g5, g6, g7⟩
  | some e0 =>
      cases ha1 : acts 1 with
      | none =>
          obtain ⟨g1, _, g3, g4, g5, g6, g7, _, _⟩ :=
            retryAux_firstSuccess n key acts durs recDurs shot 1 0 2 now r []
              (by omega) (by simpa using ha1)
              (by
                intro l hl
                have : l = 0 := by omega
                subst this
                simp [ha0])
          exact ⟨g1, ⟨_, g3⟩, g4, g5, g6, g7⟩
      | some e1 =>
          cases ha2 : acts 2 with
          | none =>
              obtain ⟨g1, _, g3, g4, g5, g6, g7, _, _⟩ :=
                retryAux_firstSuccess n key acts durs recDurs shot 2 0 2 now r []
                  (Nat.le_refl 2) (by simpa using ha2)
                  (by
                    intro l hl
                    interval_cases l
                    · simp [ha0]
                    · simp [ha1])
              exact ⟨g1, ⟨_, g3⟩, g4, g5, g6, g7⟩
          | some e2 =>
              exfalso
              obtain ⟨j, hj, hnone⟩ := h
              interval_cases j <;> simp_all

/-- An execute_step_with_retry call (max_retries = 2) all of whose
attempts fail returns False with a Failed StepResult, a failed
finalized report and the screenshot attached. -/
theorem retry2_fail (n : Nat) (key : String) (acts : Nat → Option String)
    (durs recDurs : Nat → ℚ) (shot : String) (r : TestResult) (now : ℚ)
    (h : ∀ j, j ≤ 2 → acts j ≠ none) :
    (execute_step_with_retry n key acts durs recDurs shot 2 r now).ok = false
    ∧ (execute_step_with_retry n key acts durs recDurs shot 2 r now).res.success = false
    ∧ (execute_step_with_retry n key acts durs recDurs shot 2 r now).res.status = "0"
    ∧ (execute_step_with_retry n key acts durs recDurs shot 2 r now).res.screenshot =
        some shot
    ∧ (∃ d, (execute_step_with_retry n key acts durs recDurs shot 2 r now).res.steps =
        dictInsert r.steps key { status := "0", duration_seconds := d }) := by
  obtain ⟨g1, _, g3, g4, g5, _, _, g8⟩ :=
    retryAux_allFail n key acts (fun j => (acts j).getD "") durs recDurs shot 2 0 now r []
      (by
        intro j hj
        simp only [Nat.zero_add]
        cases haj : acts j with
        | none => exact absurd haj (h j hj)
        | some e => rfl)
  exact ⟨g1, g4, g5, g8, ⟨_, g3⟩⟩

/-- The lks.main chain over passing steps followed by a failing step:
one StepResult per attempted step in order, the failing step recorded
Failed, exit code 1, later steps never attempted. -/
theorem runLksSteps_fail (shot : String) (pre : List LStep) (bad : LStep)
    (post : List LStep) :
    ∀ (k : Nat) (r : TestResult) (now : ℚ) (att : List String),
    (∀ s ∈ pre, ∃ j, j ≤ 2 ∧ s.acts j = none) →
    (∀ j, j ≤ 2 → bad.acts j ≠ none) →
    (∀ s ∈ pre, s.key ∉ r.steps.map Prod.fst) →
    bad.key ∉ r.steps.map Prod.fst →
    ((pre ++ [bad]).map LStep.key).Nodup →
    nameStatus (runLksSteps shot k (pre ++ bad :: post) r now att).res.steps =
        nameStatus r.steps ++ pre.map (fun s => (s.key, "1")) ++ [(bad.key, "0")]
    ∧ (runLksSteps shot k (pre ++ bad :: post) r now att).res.success = false
    ∧ (runLksSteps shot k (pre ++ bad :: post) r now att).res.status = "0"
    ∧ (runLksSteps shot k (pre ++ bad :: post) r now att).attempted =
        att ++ pre.map LStep.key ++ [bad.key]
    ∧ (runLksSteps shot k (pre ++ bad :: post) r now att).exitCode = 1 := by
  induction pre with
  | nil =>
      intro k r now att _ hbad _ hfreshb _
      obtain ⟨g1, g4, g5, _, d, gsteps⟩ :=
        retry2_fail k bad.key bad.acts bad.durs bad.recDurs shot r now hbad
      simp only [List.nil_append, runLksSteps]
      rw [if_neg (by simp [g1])]
      refine ⟨?_, g4, g5, by simp, rfl⟩
      rw [gsteps, dictInsert_of_not_mem _ _ _ hfreshb]
      simp [nameStatus_append, nameStatus]
  | cons s pre' ih =>
      intro k r now att hpre hbad hfresh hfreshb hnodup
      obtain ⟨g1, ⟨d, gsteps⟩, g4, g5, g6, g7⟩ :=
        retry2_pass k s.key s.acts s.durs s.recDurs shot r now
          (hpre s (List.mem_cons_self s pre'))
      have hsn : s.key ∉ r.steps.map Prod.fst := hfresh s (List.mem_cons_self s pre')
      rw [List.cons_append, List.map_cons, List.nodup_cons] at hnodup
      have hsname : s.key ∉ (pre' ++ [bad]).map LStep.key := hnodup.1
      simp only [List.cons_append, runLksSteps]
      rw [if_pos g1]
      obtain ⟨h1, h2, h3, h4, h5⟩ := ih (k + 1)
        (execute_step_with_retry k s.key s.acts s.durs s.recDurs shot 2 r now).res
        (execute_step_with_retry k s.key s.acts s.durs s.recDurs shot 2 r now).now
        (att ++ [s.key])
        (fun q hq => hpre q (List.mem_cons_of_mem s hq))
        hbad
        (by
          intro q hq
          rw [gsteps, dictInsert_of_not_mem _ _ _ hsn]
          simp only [List.map_append, List.mem_append]
          rintro (hmem | hmem)
          · exact hfresh q (List.mem_cons_of_mem s hq) hmem
          · have : q.key = s.key := by simpa using hmem
            exact hsname (by
              rw [← this]
              exact List.mem_map_of_mem LStep.key (by simp [hq])))
        (by
          rw [gsteps, dictInsert_of_not_mem _ _ _ hsn]
          simp only [List.map_append, List.mem_append]
          rintro (hmem | hmem)
          · exact hfreshb hmem
          · have : bad.key = s.key := by simpa using hmem
            exact hsname (by
              rw [← this]
              exact List.mem_map_of_mem LStep.key (by simp)))
        hnodup.2
      refine ⟨?_, h2, h3, ?_, h5⟩
      · simp only [List.append_eq]
        rw [h1, gsteps, dictInsert_of_not_mem _ _ _ hsn]
        simp [nameStatus_append, nameStatus]
      · simp only [List.append_eq]
        rw [h4]
        simp

/-- The lks.main chain in which every step has a successful attempt:
the run finalizes successful with exit code 0, no error, and an
untouched screenshot. -/
theorem runLksSteps_allok (shot : String) (steps : List LStep) :
    ∀ (k : Nat) (r : TestResult) (now : ℚ) (att : List String),
    (∀ s ∈ steps, ∃ j, j ≤ 2 ∧ s.acts j = none) →
    (runLksSteps shot k steps r now att).res.success = true
    ∧ (runLksSteps shot k steps r now att).res.error = none
    ∧ (runLksSteps shot k steps r now att).res.screenshot = r.screenshot
    ∧ (runLksSteps shot k steps r now att).exitCode = 0 := by
  induction steps with
  | nil =>
      intro k r now att _
      exact ⟨rfl, rfl, rfl, rfl⟩
  | cons s rest ih =>
      intro k r now att hall
      obtain ⟨g1, _, _, _, _, g7⟩ :=
        retry2_pass k s.key s.acts s.durs s.recDurs shot r now
          (hall s (List.mem_cons_self s rest))
      simp only [runLksSteps]
      rw [if_pos g1]
      obtain ⟨h1, h2, h3, h4⟩ := ih (k + 1)
        (execute_step_with_retry k s.key s.acts s.durs s.recDurs shot 2 r now).res
        (execute_step_with_retry k s.key s.acts s.durs s.recDurs shot 2 r now).now
        (att ++ [s.key])
        (fun q hq => hall q (List.mem_cons_of_mem s hq))
      exact ⟨h1, h2, by rw [h3, g7], h4⟩

/-! ## Claims C1 and C8 -/

/-- C1: for both pipeline shapes (the unrolled itrans.main blocks and
the lks.main retry chain), a run whose first failure is at step k
(k - 1 passing steps, then a failing one) records exactly k
StepResults in execution order, the first k - 1 with status "1" and
the k-th with status "0", reports success = false with exit code 1,
and executes or attempts no step after the k-th. -/
theorem C1_fail_fast
    (preI : List PStep) (badI : PStep) (postI : List PStep)
    (shotI : String) (t0 : ℚ)
    (preL : List LStep) (badL : LStep) (postL : List LStep)
    (shotL : String) (t1 : ℚ)
    (hpreI : ∀ p ∈ preI, p.ok = true) (hbadI : badI.ok = false)
    (hnI : ((preI ++ [badI]).map PStep.name).Nodup)
    (hpreL : ∀ s ∈ preL, ∃ j, j ≤ 2 ∧ s.acts j = none)
    (hbadL : ∀ j, j ≤ 2 → badL.acts j ≠ none)
    (hnL : ((preL ++ [badL]).map LStep.key).Nodup) :
    (nameStatus (runItransMain (preI ++ badI :: postI) shotI t0).res.steps =
        preI.map (fun p => (p.name, "1")) ++ [(badI.name, "0")]
     ∧ (runItransMain (preI ++ badI :: postI) shotI t0).res.success = false
     ∧ (runItransMain (preI ++ badI :: postI) shotI t0).res.status = "0"
     ∧ (runItransMain (preI ++ badI :: postI) shotI t0).executed =
        preI.map PStep.name ++ [badI.name]
     ∧ (runItransMain (preI ++ badI :: postI) shotI t0).exitCode = 1)
    ∧ (nameStatus (runLksMain (preL ++ badL :: postL) shotL t1).res.steps =
        preL.map (fun s => (s.key, "1")) ++ [(badL.key, "0")]
     ∧ (runLksMain (preL ++ badL :: postL) shotL t1).res.success = false
     ∧ (runLksMain (preL ++ badL :: postL) shotL t1).res.status = "0"
     ∧ (runLksMain (preL ++ badL :: postL) shotL t1).attempted =
        preL.map LStep.key ++ [badL.key]
     ∧ (runLksMain (preL ++ badL :: postL) shotL t1).exitCode = 1) := by
  constructor
  · cases preI with
    | nil =>
        simp only [List.nil_append, runItransMain]
        rw [if_neg (show ¬badI.ok = true by simp [hbadI])]
        refine ⟨?_, rfl, rfl, by simp, rfl⟩
        simp [TestResult.finalize, TestResult.set_screenshot_b64, TestResult.add_step,
          TestResult.init, dictInsert, nameStatus]
    | cons p preI' =>
        have hp : p.ok = true := hpreI p (List.mem_cons_self p preI')
        rw [List.cons_append, List.map_cons, List.nodup_cons] at hnI
        simp only [List.cons_append, runItransMain]
        rw [if_pos hp]
        obtain ⟨h1, h2, h3, h4, h5⟩ := runRest_fail shotI preI' badI postI 2
          { res := (TestResult.init t0).add_step p.name "1" (t0 + p.dur - t0),
            check_error_banner := true, now := t0 + p.dur,
            executed := [p.name], exitCode := 0 }
          (fun q hq => hpreI q (List.mem_cons_of_mem p hq))
          hbadI
          (by
            intro q hq
            simp only [TestResult.add_step, TestResult.init, dictInsert]
            intro hmem
            have : q.name = p.name := by simpa using hmem
            exact hnI.1 (by
              rw [← this]
              exact List.mem_map_of_mem PStep.name (by simp [hq]))
          )
          (by
            simp only [TestResult.add_step, TestResult.init, dictInsert]
            intro hmem
            have : badI.name = p.name := by simpa using hmem
            exact hnI.1 (by
              rw [← this]
              exact List.mem_map_of_mem PStep.name (by simp)))
          hnI.2
        refine ⟨?_, h2, h3, ?_, h5⟩
        · rw [h1]
          simp [TestResult.add_step, TestResult.init, dictInsert, nameStatus]
        · rw [h4]
          simp
  · obtain ⟨h1, h2, h3, h4, h5⟩ := runLksSteps_fail shotL preL badL postL 1
      (TestResult.init t1) t1 []
      hpreL hbadL
      (by intro s hs; simp [TestResult.init])
      (by simp [TestResult.init])
      hnL
    refine ⟨?_, h2, h3, ?_, h5⟩
    · rw [show runLksMain (preL ++ badL :: postL) shotL t1 =
        runLksSteps shotL 1 (preL ++ badL :: postL) (TestResult.init t1) t1 [] from rfl,
        h1]
      simp [TestResult.init, nameStatus]
    · rw [show runLksMain (preL ++ badL :: postL) shotL t1 =
        runLksSteps shotL 1 (preL ++ badL :: postL) (TestResult.init t1) t1 [] from rfl,
        h4]
      simp

/-- Witness for C1: a two-step itrans run failing at step 2 and a
two-step lks run failing at step 2. -/
theorem C1_fail_fast_witness :
    nameStatus (runItransMain
      [{ name := "step_ok", ok := true, dur := 1, errText := "" },
       { name := "step_bad", ok := false, dur := 1, errText := "boom" }]
      "shot" 0).res.steps = [("step_ok", "1"), ("step_bad", "0")]
    ∧ nameStatus (runLksMain
      [{ key := "lks_ok", acts := fun _ => none,
         durs := fun _ => 1, recDurs := fun _ => 1 },
       { key := "lks_bad", acts := fun _ => some "boom",
         durs := fun _ => 1, recDurs := fun _ => 1 }]
      "shot" 0).res.steps = [("lks_ok", "1"), ("lks_bad", "0")] := by
  obtain ⟨hI, hL⟩ := C1_fail_fast
    [{ name := "step_ok", ok := true, dur := 1, errText := "" }]
    { name := "step_bad", ok := false, dur := 1, errText := "boom" } []
    "shot" 0
    [{ key := "lks_ok", acts := fun _ => none,
       durs := fun _ => 1, recDurs := fun _ => 1 }]
    { key := "lks_bad", acts := fun _ => some "boom",
      durs := fun _ => 1, recDurs := fun _ => 1 } []
    "shot" 0
    (by decide) (by decide) (by decide)
    (by
      intro s hs
      rw [List.mem_singleton] at hs
      subst hs
      exact ⟨0, by decide, rfl⟩)
    (by decide) (by decide)
  exact ⟨by simpa using hI.1, by simpa using hL.1⟩

/-- The error field of the itrans report is always present, as the
serialization of TestResult.error. -/
theorem lookup_error_itrans (r : TestResult) :
    List.lookup "error" r.to_dict_itrans = some (optStrJson r.error) := by
  rfl

/-- The screenshot field of the itrans report. -/
theorem lookup_screenshot_itrans (r : TestResult) :
    List.lookup "screenshot" r.to_dict_itrans = some (optStrJson r.screenshot) := by
  rfl

/-- When TestResult.error is None the lks report omits the error key. -/
theorem lookup_error_lks (r : TestResult) (h : r.error = none) :
    List.lookup "error" r.to_dict_lks = none := by
  rw [TestResult.to_dict_lks, h]
  rfl

/-- The screenshot field of the lks report. -/
theorem lookup_screenshot_lks (r : TestResult) :
    List.lookup "screenshot" r.to_dict_lks = some (optStrJson r.screenshot) := by
  rw [TestResult.to_dict_lks]
  cases r.error with
  | none => rfl
  | some e => rfl

/-- An itrans run whose steps all pass finalizes successful with no
error and no screenshot. -/
theorem runItransMain_allok (steps : List PStep) (shot : String) (t0 : ℚ)
    (h : ∀ p ∈ steps, p.ok = true) :
    (runItransMain steps shot t0).res.success = true
    ∧ (runItransMain steps shot t0).res.error = none
    ∧ (runItransMain steps shot t0).res.screenshot = none := by
  cases steps with
  | nil => exact ⟨rfl, rfl, rfl⟩
  | cons login rest =>
      have hl : login.ok = true := h login (List.mem_cons_self login rest)
      simp only [runItransMain]
      rw [if_pos hl]
      obtain ⟨h1, h2, h3, _⟩ := runRest_allok shot rest 2
        { res := (TestResult.init t0).add_step login.name "1" (t0 + login.dur - t0),
          check_error_banner := true, now := t0 + login.dur,
          executed := [login.name], exitCode := 0 }
        (fun q hq => h q (List.mem_cons_of_mem login hq))
      refine ⟨h1, h2, ?_⟩
      rw [h3]
      rfl

/-- An lks run whose steps all have a successful attempt finalizes
successful with no error and no screenshot. -/
theorem runLksMain_allok (steps : List LStep) (shot : String) (t1 : ℚ)
    (h : ∀ s ∈ steps, ∃ j, j ≤ 2 ∧ s.acts j = none) :
    (runLksMain steps shot t1).res.success = true
    ∧ (runLksMain steps shot t1).res.error = none
    ∧ (runLksMain steps shot t1).res.screenshot = none := by
  obtain ⟨h1, h2, h3, _⟩ := runLksSteps_allok shot steps 1 (TestResult.init t1) t1 [] h
  refine ⟨h1, h2, ?_⟩
  rw [show runLksMain steps shot t1 =
    runLksSteps shot 1 steps (TestResult.init t1) t1 [] from rfl, h3]
  rfl

/-- C8 counterexample: on an all-passing itrans run the error field is
not absent from the report: the to_dict of itrans.py always emits the error
key, with a null value on success. -/
theorem C8_counterexample :
    List.lookup "error" (TestResult.to_dict_itrans
      (runItransMain
        [{ name := "step_ok", ok := true, dur := 1, errText := "" }]
        "shot" 0).res) = some JVal.null := by
  rfl

/-- C8 amended: a run in which every step passes reports
success = true with a null screenshot field and no error detail; the
error field is absent from the lks report (to_dict omits it when error
is None) but present with a null value in the itrans report (to_dict
always emits it). -/
theorem C8_amended (stepsI : List PStep) (shotI : String) (t0 : ℚ)
    (stepsL : List LStep) (shotL : String) (t1 : ℚ)
    (hI : ∀ p ∈ stepsI, p.ok = true)
    (hL : ∀ s ∈ stepsL, ∃ j, j ≤ 2 ∧ s.acts j = none) :
    (runItransMain stepsI shotI t0).res.success = true
    ∧ (runItransMain stepsI shotI t0).res.screenshot = none
    ∧ List.lookup "error"
        (TestResult.to_dict_itrans (runItransMain stepsI shotI t0).res) =
        some JVal.null
    ∧ List.lookup "screenshot"
        (TestResult.to_dict_itrans (runItransMain stepsI shotI t0).res) =
        some JVal.null
    ∧ (runLksMain stepsL shotL t1).res.success = true
    ∧ (runLksMain stepsL shotL t1).res.screenshot = none
    ∧ List.lookup "error"
        (TestResult.to_dict_lks (runLksMain stepsL shotL t1).res) = none
    ∧ List.lookup "screenshot"
        (TestResult.to_dict_lks (runLksMain stepsL shotL t1).res) =
        some JVal.null := by
  obtain ⟨i1, i2, i3⟩ := runItransMain_allok stepsI shotI t0 hI
  obtain ⟨l1, l2, l3⟩ := runLksMain_allok stepsL shotL t1 hL
  refine ⟨i1, i3, ?_, ?_, l1, l3, ?_, ?_⟩
  · rw [lookup_error_itrans, i2]
    rfl
  · rw [lookup_screenshot_itrans, i3]
    rfl
  · exact lookup_error_lks _ l2
  · rw [lookup_screenshot_lks, l3]
    rfl

/-- Witness for C8 amended: concrete all-passing one-step runs. -/
theorem C8_amended_witness :
    (runItransMain
      [{ name := "step_ok", ok := true, dur := 1, errText := "" }]
      "shot" 0).res.success = true
    ∧ List.lookup "error" (TestResult.to_dict_lks
      (runLksMain
        [{ key := "lks_ok", acts := fun _ => none,
           durs := fun _ => 1, recDurs := fun _ => 1 }]
        "shot" 0).res) = none := by
  obtain ⟨w1, _, _, _, _, _, w7, _⟩ := C8_amended
    [{ name := "step_ok", ok := true, dur := 1, errText := "" }] "shot" 0
    [{ key := "lks_ok", acts := fun _ => none,
       durs := fun _ => 1, recDurs := fun _ => 1 }] "shot" 0
    (by decide)
    (by
      intro s hs
      rw [List.mem_singleton] at hs
      subst hs
      exact ⟨0, by decide, rfl⟩)
  exact ⟨w1, w7⟩

end Zbx
